import Mathlib

/-!
Shallow embedding of the node-shell repository (src/index.ts).

Modelling conventions:
* Byte buffers (`Buffer`/`Uint8Array` chunks) are modelled as `String`;
  `Buffer.concat(...).toString()` becomes `String.join` of the chunk list
  (chunk boundaries are assumed not to split multi-byte code points).
* The mutable `ShellPromiseState` object of `index.ts` is the `state` field
  of a `RunState`; the event handlers installed by `createPromise`
  (`onError`, the `"data"` handlers, the `"close"` handler) are translated
  one-to-one into pure state transformers.
* `resolve`/`reject` calls are recorded by appending a `Settle` to the
  `settles` list, so that a double resolution would be visible as a list of
  length two.
* Writes forwarded to the controlling process (`process.stdout.write`,
  `process.stderr.write`, `console.error`) are recorded in the
  `parentStdout`, `parentStderr` and `consoleErr` lists.
* Environment objects (`process.env`, `state.env`) are modelled as
  `String → Option String`; the JavaScript object spread
  `\x7b...process.env, ...state.env\x7d` is `spawnEnv`.
-/

namespace NodeShell

/-- Configuration and lifecycle state of one invocation
(interface `ShellPromiseState` in index.ts; the `childStdin` handle is
not modelled). -/
structure ShellPromiseState where
  shell : Option String := none
  cwd : Option String := none
  envOverlay : Option (String → Option String) := none
  timeout : Option Nat := none
  quiet : Bool
  nothrow : Bool
  closed : Bool

/-- Finalized outcome of an invocation (class `ShellOutput` in index.ts;
the stdin handle is not modelled). -/
structure ShellOutput where
  stdout : String
  stderr : String
  exitCode : Nat
  success : Bool
deriving Repr, DecidableEq

/-- One `resolve` or `reject` call on the promise executor. A rejection is
recorded by the message of the `Error` passed to `reject`. -/
inductive Settle where
  | resolve (out : ShellOutput)
  | reject (msg : String)
deriving Repr, DecidableEq

/-- Record of the single `childProcess.spawn` call made by `createPromise`
(command, cwd, fully resolved environment, shell, timeout). `shellUsed =
none` models the source expression `state.shell ?? true`, i.e. the host
default shell. -/
structure SpawnCall where
  command : String
  cwd : Option String
  env : String → Option String
  shellUsed : Option String
  timeout : Option Nat

/-- JavaScript object spread `\x7b...base, ...overlay\x7d` for environment
objects: the overlay wins on every key it defines. -/
def jsSpread (base overlay : String → Option String) : String → Option String :=
  fun k =>
    match overlay k with
    | some v => some v
    | none => base k

/-- The environment constructed by `createPromise`:
`const env = \x7b ...process.env, ...state.env \x7d` (spreading an
`undefined` overlay is a no-op). -/
def spawnEnv (procEnv : String → Option String)
    (overlay : Option (String → Option String)) : String → Option String :=
  match overlay with
  | none => procEnv
  | some ov => jsSpread procEnv ov

/-- The argument record of the `childProcess.spawn` call in `createPromise`. -/
def spawnCallOf (st : ShellPromiseState) (command : String)
    (procEnv : String → Option String) : SpawnCall :=
  { command := command
    cwd := st.cwd
    env := spawnEnv procEnv st.envOverlay
    shellUsed := st.shell
    timeout := st.timeout }

/-- Whole observable state of one running invocation: the shared mutable
`state` object, the `stdout`/`stderr` chunk arrays, the recorded
`resolve`/`reject` calls, the chunks forwarded to the controlling process,
the `console.error` output, the (never mutated) process-wide environment
and the record of the spawn call. -/
structure RunState where
  state : ShellPromiseState
  stdoutChunks : List String
  stderrChunks : List String
  settles : List Settle
  parentStdout : List String
  parentStderr : List String
  consoleErr : List String
  globalEnv : String → Option String
  spawnCall : SpawnCall

/-- State at the moment `createPromise(state, command)` has spawned the
child and installed its handlers. -/
def initRun (st : ShellPromiseState) (command : String)
    (procEnv : String → Option String) : RunState :=
  { state := st
    stdoutChunks := []
    stderrChunks := []
    settles := []
    parentStdout := []
    parentStderr := []
    consoleErr := []
    globalEnv := procEnv
    spawnCall := spawnCallOf st command procEnv }

/-- Outcome built by `onError`: partial buffers, sentinel exit code 1,
`success = false`. -/
def errOutcome (st : RunState) : ShellOutput :=
  { stdout := String.join st.stdoutChunks
    stderr := String.join st.stderrChunks
    exitCode := 1
    success := false }

/-- Handler `onError` of `createPromise` (also reached by the
`disconnect` event): one-shot guarded by `state.closed`; echoes the error
via `console.error` unless quiet; resolves with the partial outcome when
`nothrow`, else rejects with the error. -/
def onError (st : RunState) (err : String) : RunState :=
  if st.state.closed then st
  else
    { st with
      state := { st.state with closed := true }
      consoleErr := if st.state.quiet then st.consoleErr else st.consoleErr ++ [err]
      settles := st.settles ++
        [if st.state.nothrow then Settle.resolve (errOutcome st) else Settle.reject err] }

/-- Handler for `child.stdout.on("data")`: append the chunk to the
accumulator and, unless quiet, forward it to the parent's stdout. -/
def onStdoutData (st : RunState) (data : String) : RunState :=
  if st.state.quiet then
    { st with stdoutChunks := st.stdoutChunks ++ [data] }
  else
    { st with
      stdoutChunks := st.stdoutChunks ++ [data]
      parentStdout := st.parentStdout ++ [data] }

/-- Handler for `child.stderr.on("data")`: append the chunk to the
accumulator and, unless quiet, forward it to the parent's stderr. -/
def onStderrData (st : RunState) (data : String) : RunState :=
  if st.state.quiet then
    { st with stderrChunks := st.stderrChunks ++ [data] }
  else
    { st with
      stderrChunks := st.stderrChunks ++ [data]
      parentStderr := st.parentStderr ++ [data] }

/-- Outcome built by the `close` handler for a given exit code. -/
def closeOutcome (st : RunState) (exitCode : Nat) : ShellOutput :=
  { stdout := String.join st.stdoutChunks
    stderr := String.join st.stderrChunks
    exitCode := exitCode
    success := exitCode == 0 }

/-- The settle performed by the `close` handler: resolve on exit code 0;
on a nonzero code resolve when `nothrow`, else reject with the accumulated
stderr text, falling back (JavaScript `||` on the empty string) to
`"Command failed with code N"`. -/
def closeSettle (st : RunState) (exitCode : Nat) : Settle :=
  if exitCode == 0 then Settle.resolve (closeOutcome st exitCode)
  else if st.state.nothrow then Settle.resolve (closeOutcome st exitCode)
  else
    Settle.reject
      (if String.join st.stderrChunks = "" then
        "Command failed with code " ++ toString exitCode
      else String.join st.stderrChunks)

/-- Handler for `child.on("close", (code) => ...)`: one-shot guarded by
`state.closed`; `code ?? 1` maps an absent exit code to the sentinel 1. -/
def onClose (st : RunState) (code : Option Nat) : RunState :=
  if st.state.closed then st
  else
    { st with
      state := { st.state with closed := true }
      settles := st.settles ++ [closeSettle st (code.getD 1)] }

/-- The asynchronous events a running invocation can observe, in the order
the host runtime delivers them. -/
inductive Event where
  | stdoutData (data : String)
  | stderrData (data : String)
  | close (code : Option Nat)
  | errorEv (err : String)
  | disconnect
deriving Repr, DecidableEq

/-- Completion events are those that can settle the promise: `close`,
`error` and `disconnect`. -/
def Event.isCompletion : Event → Bool
  | .close _ => true
  | .errorEv _ => true
  | .disconnect => true
  | _ => false

/-- Dispatch one event to the handler `createPromise` installed for it
(`disconnect` runs `onError("Disconnected")`, as in
`child.on('disconnect', () => onError("Disconnected"))`). -/
def step (st : RunState) : Event → RunState
  | .stdoutData d => onStdoutData st d
  | .stderrData d => onStderrData st d
  | .close c => onClose st c
  | .errorEv e => onError st e
  | .disconnect => onError st "Disconnected"

/-- Run an invocation over a sequence of delivered events. -/
def runEvents (st : RunState) (evs : List Event) : RunState :=
  evs.foldl step st

/-! Builder object (`class ShellPromise`). The memoized `#promise` field is
modelled by `promiseCell`, holding the identity of the promise created by
the single `createPromise` call; `spawnCount` counts how many times
`createPromise` (and hence `childProcess.spawn`) has run for this object. -/

/-- The `ShellPromise` object: command, shared mutable state, the private
`#promise` memo cell and a spawn counter. -/
structure ShellPromiseObj where
  command : String
  state : ShellPromiseState
  promiseCell : Option Nat
  spawnCount : Nat

/-- `ShellPromise.FromCommand`: fresh state with `quiet = false`,
`nothrow = false`, `closed = false`, and no promise created yet. -/
def FromCommand (command : String) : ShellPromiseObj :=
  { command := command
    state := { quiet := false, nothrow := false, closed := false }
    promiseCell := none
    spawnCount := 0 }

/-- The `get promise` accessor: create the promise (spawning the process)
on first access, thereafter return the memoized one. Returns the updated
object and the identity of the promise handed out. -/
def getPromise (sp : ShellPromiseObj) : ShellPromiseObj × Nat :=
  match sp.promiseCell with
  | some p => (sp, p)
  | none =>
    ({ sp with promiseCell := some sp.spawnCount, spawnCount := sp.spawnCount + 1 },
      sp.spawnCount)

/-- The configuration methods of `ShellPromise` (each mutates `this.state`
and returns `this`). -/
inductive ConfigOp where
  | cwd (dir : String)
  | timeout (ms : Nat)
  | quiet
  | nothrow
  | throws (shouldThrow : Bool)
  | env (e : String → Option String)
  | shell (sh : String)

/-- Effect of one configuration method on the shared state object. -/
def applyState (st : ShellPromiseState) : ConfigOp → ShellPromiseState
  | .cwd d => { st with cwd := some d }
  | .timeout t => { st with timeout := some t }
  | .quiet => { st with quiet := true }
  | .nothrow => { st with nothrow := true }
  | .throws b => { st with nothrow := !b }
  | .env e => { st with envOverlay := some e }
  | .shell s => { st with shell := some s }

/-- A configuration method call on the builder object: touches only
`state`, never the promise cell or the spawn counter. -/
def applyConfig (sp : ShellPromiseObj) (op : ConfigOp) : ShellPromiseObj :=
  { sp with state := applyState sp.state op }

/-- A chain of configuration calls. -/
def applyConfigs (sp : ShellPromiseObj) (ops : List ConfigOp) : ShellPromiseObj :=
  ops.foldl applyConfig sp

/-- The entry points that start the process: `then`, `catch`, `finally`,
the terminal accessors `text`, `json`, `lines`, `toString`, `arrayBuffer`,
`blob`, and the `stdin` getter. -/
inductive EntryPoint where
  | thenCall
  | catchCall
  | finallyCall
  | textCall
  | jsonCall
  | linesCall
  | toStringCall
  | arrayBufferCall
  | blobCall
  | stdinAccess
deriving Repr, DecidableEq

/-- Every entry point reads `this.promise`, i.e. goes through the
memoized `getPromise` accessor (lines 154-159, 168-178, 181-196, 289-360
of index.ts). -/
def access (sp : ShellPromiseObj) : EntryPoint → ShellPromiseObj × Nat :=
  fun _ => getPromise sp

/-! Model of `ShellPromise.lines` and its line splitting. -/

/-- JavaScript `String.prototype.split` with the one-character separator
`"\n"`: `""` splits to `[""]`, and every newline opens a new (possibly
empty) segment. -/
def splitNl : List Char → List (List Char)
  | [] => [[]]
  | c :: rest =>
    if c = '\n' then [] :: splitNl rest
    else
      match splitNl rest with
      | [] => [[c]]
      | h :: t => (c :: h) :: t

/-- `s.split("\n")` on strings. -/
def jsSplitNl (s : String) : List String :=
  (splitNl s.data).map (fun cs => String.mk cs)

/-- The list of lines yielded by `ShellPromise.lines()` once the promise
has resolved with outcome `out`:
`output.stdout.toString().split("\n")`, each element yielded in order
(lines 298-306 of index.ts). -/
def linesOf (out : ShellOutput) : List String :=
  jsSplitNl out.stdout

/-- Modelled from the spec: the line-splitting view claimed in C9 —
"split stdout on newline boundaries, dropping a single trailing empty
segment if stdout ends in newline". -/
def linesSpec (s : String) : List String :=
  if s.data.getLast? == some '\n' then (jsSplitNl s).dropLast else jsSplitNl s

/-! Setter calls interleaved with the in-flight run (for the
immutability-after-start claim). A setter call after start mutates the
very `state` object the installed handlers read. -/

/-- Either a runtime event delivered to the handlers or a configuration
method called on the builder after the start. -/
inductive Action where
  | ev (e : Event)
  | set (op : ConfigOp)

/-- Apply one action to the running invocation. -/
def stepAction (st : RunState) : Action → RunState
  | .ev e => step st e
  | .set op => { st with state := applyState st.state op }

/-- Run a sequence of interleaved events and setter calls. -/
def runActions (st : RunState) (acts : List Action) : RunState :=
  acts.foldl stepAction st

/-! Model of the JavaScript built-in `JSON.parse`, used by
`ShellOutput.json` (line 111 of index.ts:
`return JSON.parse(this.stdout.toString())`). `JSON.parse` implements the
strict JSON grammar: no comments, no trailing commas; on malformed input
it throws a `SyntaxError`. Numbers are carried by their source lexeme
(their conversion to a float64 is out of scope). -/

/-- Parsed JSON documents. -/
inductive JsonValue where
  | null
  | bool (b : Bool)
  | num (raw : String)
  | str (s : String)
  | arr (elems : List JsonValue)
  | obj (members : List (String × JsonValue))

/-- The opening brace character. -/
def lbrace : Char := Char.ofNat 123

/-- The closing brace character. -/
def rbrace : Char := Char.ofNat 125

/-- JSON insignificant whitespace. -/
def isJsonWs (c : Char) : Bool :=
  c == ' ' || c == '\t' || c == '\n' || c == '\r'

/-- Skip insignificant whitespace. -/
def skipWs : List Char → List Char
  | [] => []
  | c :: rest => if isJsonWs c then skipWs rest else c :: rest

/-- Consume an expected keyword tail (`ull`, `rue`, `alse`). -/
def eatKeyword : List Char → List Char → Option (List Char)
  | [], cs => some cs
  | k :: ks, c :: cs => if c = k then eatKeyword ks cs else none
  | _ :: _, [] => none

/-- Value of a hexadecimal digit. -/
def hexVal (c : Char) : Option Nat :=
  if '0' ≤ c ∧ c ≤ '9' then some (c.toNat - '0'.toNat)
  else if 'a' ≤ c ∧ c ≤ 'f' then some (c.toNat - 'a'.toNat + 10)
  else if 'A' ≤ c ∧ c ≤ 'F' then some (c.toNat - 'A'.toNat + 10)
  else none

/-- Longest prefix of decimal digits. -/
def takeDigits : List Char → List Char × List Char
  | [] => ([], [])
  | c :: rest =>
    if c.isDigit then
      let (ds, r) := takeDigits rest
      (c :: ds, r)
    else ([], c :: rest)

/-- Body of a JSON string literal after the opening quote, with the JSON
escape sequences (a `\u` escape for a non-scalar code point degrades to
`Char.ofNat`'s fallback; surrogate pairing is not modelled). -/
def parseStringBody : List Char → List Char → Option (String × List Char)
  | [], _ => none
  | c :: rest, acc =>
    if c = '"' then some (String.mk acc.reverse, rest)
    else if c = '\\' then
      match rest with
      | [] => none
      | e :: rest2 =>
        if e = '"' then parseStringBody rest2 ('"' :: acc)
        else if e = '\\' then parseStringBody rest2 ('\\' :: acc)
        else if e = '/' then parseStringBody rest2 ('/' :: acc)
        else if e = 'b' then parseStringBody rest2 (Char.ofNat 8 :: acc)
        else if e = 'f' then parseStringBody rest2 (Char.ofNat 12 :: acc)
        else if e = 'n' then parseStringBody rest2 ('\n' :: acc)
        else if e = 'r' then parseStringBody rest2 ('\r' :: acc)
        else if e = 't' then parseStringBody rest2 ('\t' :: acc)
        else if e = 'u' then
          match rest2 with
          | h1 :: h2 :: h3 :: h4 :: rest6 =>
            match hexVal h1, hexVal h2, hexVal h3, hexVal h4 with
            | some a, some b, some c2, some d =>
              parseStringBody rest6 (Char.ofNat (((a * 16 + b) * 16 + c2) * 16 + d) :: acc)
            | _, _, _, _ => none
          | _ => none
        else none
    else if c.toNat < 32 then none
    else parseStringBody rest (c :: acc)

/-- Fraction part of a JSON number (`.` followed by at least one digit),
appended to the lexeme accumulated so far. -/
def parseFrac (acc : List Char) : List Char → Option (List Char × List Char)
  | '.' :: r =>
    match takeDigits r with
    | ([], _) => none
    | (ds, r2) => some (acc ++ '.' :: ds, r2)
  | cs => some (acc, cs)

/-- Exponent part of a JSON number (`e`/`E`, optional sign, at least one
digit), appended to the lexeme accumulated so far. -/
def parseExp (acc : List Char) : List Char → Option (List Char × List Char)
  | c :: r =>
    if c = 'e' ∨ c = 'E' then
      match r with
      | s :: r2 =>
        if s = '+' ∨ s = '-' then
          match takeDigits r2 with
          | ([], _) => none
          | (ds, r3) => some (acc ++ c :: s :: ds, r3)
        else
          match takeDigits r with
          | ([], _) => none
          | (ds, r3) => some (acc ++ c :: ds, r3)
      | [] => none
    else some (acc, c :: r)
  | [] => some (acc, [])

/-- A JSON number lexeme: optional minus, integer part without leading
zeros, optional fraction and exponent. -/
def parseNumber (cs : List Char) : Option (String × List Char) :=
  let signed := match cs with
    | '-' :: r => (['-'], r)
    | _ => (([] : List Char), cs)
  match signed.2 with
  | [] => none
  | c :: rest =>
    if c = '0' then
      match parseFrac (signed.1 ++ ['0']) rest with
      | none => none
      | some (acc2, r2) =>
        match parseExp acc2 r2 with
        | none => none
        | some (acc3, r3) => some (String.mk acc3, r3)
    else if c.isDigit then
      match takeDigits rest with
      | (ds, r1) =>
        match parseFrac (signed.1 ++ c :: ds) r1 with
        | none => none
        | some (acc2, r2) =>
          match parseExp acc2 r2 with
          | none => none
          | some (acc3, r3) => some (String.mk acc3, r3)
    else none

mutual

/-- Parse one JSON value (fuel-indexed recursive descent). -/
def parseValue : Nat → List Char → Option (JsonValue × List Char)
  | 0, _ => none
  | fuel + 1, cs =>
    match skipWs cs with
    | [] => none
    | c :: rest =>
      if c = 'n' then
        match eatKeyword ['u', 'l', 'l'] rest with
        | some r => some (JsonValue.null, r)
        | none => none
      else if c = 't' then
        match eatKeyword ['r', 'u', 'e'] rest with
        | some r => some (JsonValue.bool true, r)
        | none => none
      else if c = 'f' then
        match eatKeyword ['a', 'l', 's', 'e'] rest with
        | some r => some (JsonValue.bool false, r)
        | none => none
      else if c = '"' then
        match parseStringBody rest [] with
        | some (s, r) => some (JsonValue.str s, r)
        | none => none
      else if c = '[' then
        match skipWs rest with
        | ']' :: r => some (JsonValue.arr [], r)
        | cs2 => parseElems fuel cs2 []
      else if c = lbrace then
        match skipWs rest with
        | [] => none
        | d :: r =>
          if d = rbrace then some (JsonValue.obj [], r)
          else parseMembers fuel (d :: r) []
      else
        match parseNumber (c :: rest) with
        | some (s, r) => some (JsonValue.num s, r)
        | none => none

/-- Parse the elements of a non-empty array (after `[`). -/
def parseElems : Nat → List Char → List JsonValue → Option (JsonValue × List Char)
  | 0, _, _ => none
  | fuel + 1, cs, acc =>
    match parseValue fuel cs with
    | none => none
    | some (v, r) =>
      match skipWs r with
      | ',' :: r2 => parseElems fuel r2 (acc ++ [v])
      | ']' :: r2 => some (JsonValue.arr (acc ++ [v]), r2)
      | _ => none

/-- Parse the members of a non-empty object (after the opening brace). -/
def parseMembers : Nat → List Char → List (String × JsonValue) →
    Option (JsonValue × List Char)
  | 0, _, _ => none
  | fuel + 1, cs, acc =>
    match skipWs cs with
    | '"' :: r =>
      match parseStringBody r [] with
      | none => none
      | some (k, r2) =>
        match skipWs r2 with
        | ':' :: r3 =>
          match parseValue fuel r3 with
          | none => none
          | some (v, r4) =>
            match skipWs r4 with
            | [] => none
            | d :: r5 =>
              if d = ',' then parseMembers fuel r5 (acc ++ [(k, v)])
              else if d = rbrace then some (JsonValue.obj (acc ++ [(k, v)]), r5)
              else none
        | _ => none
    | _ => none

end

/-- `JSON.parse(s)`: parse one value and require only whitespace after
it; `none` models the thrown `SyntaxError`. -/
def jsonParse (s : String) : Option JsonValue :=
  match parseValue (s.length + 1) s.data with
  | some (v, r) =>
    match skipWs r with
    | [] => some v
    | _ => none
  | none => none

/-- Error message standing for the `SyntaxError` exception thrown by
`JSON.parse` on malformed input. -/
def jsonSyntaxError : String := "SyntaxError: Unexpected token in JSON"

/-- `ShellOutput.json()`: `JSON.parse(this.stdout.toString())` — an
`Except.error` models the exception propagating to the caller. -/
def ShellOutput.json (out : ShellOutput) : Except String JsonValue :=
  match jsonParse out.stdout with
  | some v => Except.ok v
  | none => Except.error jsonSyntaxError

/-! Basic lemmas about the event loop. -/

theorem runEvents_nil (st : RunState) : runEvents st [] = st := rfl

theorem runEvents_cons (st : RunState) (e : Event) (evs : List Event) :
    runEvents st (e :: evs) = runEvents (step st e) evs := rfl

theorem runEvents_append (st : RunState) (a b : List Event) :
    runEvents st (a ++ b) = runEvents (runEvents st a) b :=
  List.foldl_append _ _ _ _

theorem onStdoutData_settles (st : RunState) (d : String) :
    (onStdoutData st d).settles = st.settles := by
  unfold onStdoutData; split <;> rfl

theorem onStdoutData_state (st : RunState) (d : String) :
    (onStdoutData st d).state = st.state := by
  unfold onStdoutData; split <;> rfl

theorem onStdoutData_stdoutChunks (st : RunState) (d : String) :
    (onStdoutData st d).stdoutChunks = st.stdoutChunks ++ [d] := by
  unfold onStdoutData; split <;> rfl

theorem onStdoutData_stderrChunks (st : RunState) (d : String) :
    (onStdoutData st d).stderrChunks = st.stderrChunks := by
  unfold onStdoutData; split <;> rfl

theorem onStderrData_settles (st : RunState) (d : String) :
    (onStderrData st d).settles = st.settles := by
  unfold onStderrData; split <;> rfl

theorem onStderrData_state (st : RunState) (d : String) :
    (onStderrData st d).state = st.state := by
  unfold onStderrData; split <;> rfl

theorem onStderrData_stdoutChunks (st : RunState) (d : String) :
    (onStderrData st d).stdoutChunks = st.stdoutChunks := by
  unfold onStderrData; split <;> rfl

theorem onStderrData_stderrChunks (st : RunState) (d : String) :
    (onStderrData st d).stderrChunks = st.stderrChunks ++ [d] := by
  unfold onStderrData; split <;> rfl

theorem onStdoutData_consoleErr (st : RunState) (d : String) :
    (onStdoutData st d).consoleErr = st.consoleErr := by
  unfold onStdoutData; split <;> rfl

theorem onStderrData_consoleErr (st : RunState) (d : String) :
    (onStderrData st d).consoleErr = st.consoleErr := by
  unfold onStderrData; split <;> rfl

theorem onClose_of_closed (st : RunState) (c : Option Nat)
    (h : st.state.closed = true) : onClose st c = st := by
  unfold onClose; simp [h]

theorem onError_of_closed (st : RunState) (m : String)
    (h : st.state.closed = true) : onError st m = st := by
  unfold onError; simp [h]

/-- Once the one-shot flag is set, no event settles again and the flag
stays set. -/
theorem step_closed_frozen (st : RunState) (e : Event) (h : st.state.closed = true) :
    (step st e).settles = st.settles ∧ (step st e).state.closed = true := by
  cases e with
  | stdoutData d =>
    refine ⟨onStdoutData_settles st d, ?_⟩
    show (onStdoutData st d).state.closed = true
    rw [onStdoutData_state]; exact h
  | stderrData d =>
    refine ⟨onStderrData_settles st d, ?_⟩
    show (onStderrData st d).state.closed = true
    rw [onStderrData_state]; exact h
  | close c =>
    rw [show step st (Event.close c) = onClose st c from rfl, onClose_of_closed st c h]
    exact ⟨rfl, h⟩
  | errorEv m =>
    rw [show step st (Event.errorEv m) = onError st m from rfl, onError_of_closed st m h]
    exact ⟨rfl, h⟩
  | disconnect =>
    rw [show step st Event.disconnect = onError st "Disconnected" from rfl,
      onError_of_closed st _ h]
    exact ⟨rfl, h⟩

/-- A completion event always leaves the flag set. -/
theorem step_completion_closed (st : RunState) (e : Event)
    (hc : e.isCompletion = true) : (step st e).state.closed = true := by
  cases e with
  | stdoutData d => simp [Event.isCompletion] at hc
  | stderrData d => simp [Event.isCompletion] at hc
  | close c =>
    by_cases h : st.state.closed = true
    · exact ((step_closed_frozen st _ h).2)
    · simp only [Bool.not_eq_true] at h
      simp [step, onClose, h]
  | errorEv m =>
    by_cases h : st.state.closed = true
    · exact ((step_closed_frozen st _ h).2)
    · simp only [Bool.not_eq_true] at h
      simp [step, onError, h]
  | disconnect =>
    by_cases h : st.state.closed = true
    · exact ((step_closed_frozen st _ h).2)
    · simp only [Bool.not_eq_true] at h
      simp [step, onError, h]

/-- The one-shot flag is monotone over any run. -/
theorem runEvents_closed_mono (st : RunState) (evs : List Event)
    (h : st.state.closed = true) : (runEvents st evs).state.closed = true := by
  induction evs generalizing st with
  | nil => exact h
  | cons e evs ih => exact ih _ (step_closed_frozen st e h).2

/-- A run containing a completion event ends with the flag set. -/
theorem runEvents_closed_of_completion (st : RunState) (evs : List Event)
    (h : ∃ e ∈ evs, e.isCompletion = true) :
    (runEvents st evs).state.closed = true := by
  induction evs generalizing st with
  | nil => exact absurd h (by simp)
  | cons a evs ih =>
    obtain ⟨e, he, hc⟩ := h
    rcases List.mem_cons.mp he with rfl | hmem
    · rw [runEvents_cons]
      exact runEvents_closed_mono _ _ (step_completion_closed st e hc)
    · exact ih (step st a) ⟨e, hmem, hc⟩

/-- Number of recorded settles, as dictated by the one-shot flag. -/
def SettleInv (st : RunState) : Prop :=
  st.settles.length = (if st.state.closed then 1 else 0)

theorem settleInv_step (st : RunState) (e : Event) (h : SettleInv st) :
    SettleInv (step st e) := by
  by_cases hc : st.state.closed = true
  · unfold SettleInv at h ⊢
    rw [(step_closed_frozen st e hc).1, (step_closed_frozen st e hc).2]
    rw [hc] at h
    simpa using h
  · simp only [Bool.not_eq_true] at hc
    unfold SettleInv at h
    rw [hc] at h
    simp only [Bool.false_eq_true, if_false] at h
    cases e with
    | stdoutData d =>
      show SettleInv (onStdoutData st d)
      unfold SettleInv
      rw [onStdoutData_settles, onStdoutData_state, hc]
      simpa using h
    | stderrData d =>
      show SettleInv (onStderrData st d)
      unfold SettleInv
      rw [onStderrData_settles, onStderrData_state, hc]
      simpa using h
    | close c =>
      show SettleInv (onClose st c)
      unfold SettleInv onClose
      simp [hc, h]
    | errorEv m =>
      show SettleInv (onError st m)
      unfold SettleInv onError
      simp [hc, h]
    | disconnect =>
      show SettleInv (onError st "Disconnected")
      unfold SettleInv onError
      simp [hc, h]

theorem settleInv_runEvents (st : RunState) (evs : List Event) (h : SettleInv st) :
    SettleInv (runEvents st evs) := by
  induction evs generalizing st with
  | nil => exact h
  | cons e evs ih => exact ih _ (settleInv_step st e h)

/-- The stdout chunks delivered by a sequence of events, in order. -/
def outData : List Event → List String
  | [] => []
  | Event.stdoutData d :: r => d :: outData r
  | _ :: r => outData r

/-- The stderr chunks delivered by a sequence of events, in order. -/
def errData : List Event → List String
  | [] => []
  | Event.stderrData d :: r => d :: errData r
  | _ :: r => errData r

/-- A completion-free run only accumulates and forwards data: the shared
state object, the recorded settles and the global environment are
untouched, and the accumulators grow by exactly the delivered chunks. -/
theorem runEvents_no_completion (st : RunState) (evs : List Event)
    (hn : ∀ e ∈ evs, e.isCompletion = false) :
    (runEvents st evs).state = st.state ∧
    (runEvents st evs).settles = st.settles ∧
    (runEvents st evs).stdoutChunks = st.stdoutChunks ++ outData evs ∧
    (runEvents st evs).stderrChunks = st.stderrChunks ++ errData evs ∧
    (runEvents st evs).consoleErr = st.consoleErr := by
  induction evs generalizing st with
  | nil => simp [runEvents, outData, errData]
  | cons e evs ih =>
    have he := hn e (List.mem_cons_self e evs)
    have hn' : ∀ x ∈ evs, x.isCompletion = false :=
      fun x hx => hn x (List.mem_cons_of_mem e hx)
    cases e with
    | stdoutData d =>
      rw [runEvents_cons]
      obtain ⟨h1, h2, h3, h4, h5⟩ := ih (step st (Event.stdoutData d)) hn'
      refine ⟨?_, ?_, ?_, ?_, ?_⟩
      · rw [h1]
        exact onStdoutData_state st d
      · rw [h2]
        exact onStdoutData_settles st d
      · rw [h3, show step st (Event.stdoutData d) = onStdoutData st d from rfl,
          onStdoutData_stdoutChunks, outData, List.append_assoc]
        rfl
      · rw [h4, show step st (Event.stdoutData d) = onStdoutData st d from rfl,
          onStdoutData_stderrChunks]
        rfl
      · rw [h5]
        exact onStdoutData_consoleErr st d
    | stderrData d =>
      rw [runEvents_cons]
      obtain ⟨h1, h2, h3, h4, h5⟩ := ih (step st (Event.stderrData d)) hn'
      refine ⟨?_, ?_, ?_, ?_, ?_⟩
      · rw [h1]
        exact onStderrData_state st d
      · rw [h2]
        exact onStderrData_settles st d
      · rw [h3, show step st (Event.stderrData d) = onStderrData st d from rfl,
          onStderrData_stdoutChunks]
        rfl
      · rw [h4, show step st (Event.stderrData d) = onStderrData st d from rfl,
          onStderrData_stderrChunks, errData, List.append_assoc]
        rfl
      · rw [h5]
        exact onStderrData_consoleErr st d
    | close c => simp [Event.isCompletion] at he
    | errorEv m => simp [Event.isCompletion] at he
    | disconnect => simp [Event.isCompletion] at he

/-- C1: exactly one outcome per invocation. Over any event sequence at
most one `resolve`/`reject` is recorded; as soon as some completion event
(close, error or disconnect — or a repetition of any of them) has been
delivered, exactly one is recorded; and any event delivered after the
`closed` flag is set changes no recorded settle and leaves the flag set
(a silent no-op on the outcome). -/
theorem one_shot_outcome (cfg : ShellPromiseState) (cmd : String)
    (penv : String → Option String) (evs : List Event) (h : cfg.closed = false) :
    (runEvents (initRun cfg cmd penv) evs).settles.length ≤ 1 ∧
    ((∃ e ∈ evs, e.isCompletion = true) →
      (runEvents (initRun cfg cmd penv) evs).settles.length = 1) ∧
    (∀ st : RunState, ∀ e : Event, st.state.closed = true →
      (step st e).settles = st.settles ∧ (step st e).state.closed = true) := by
  have hinv : SettleInv (initRun cfg cmd penv) := by
    unfold SettleInv initRun
    simp [h]
  have hrun := settleInv_runEvents _ evs hinv
  unfold SettleInv at hrun
  refine ⟨?_, ?_, step_closed_frozen⟩
  · rw [hrun]
    split <;> simp
  · intro hex
    rw [hrun, runEvents_closed_of_completion _ _ hex]
    simp

/-- Witness for C1 at a concrete double-close trace. -/
theorem one_shot_outcome_witness :
    (runEvents (initRun { quiet := false, nothrow := false, closed := false }
      "echo hi" (fun _ => none))
      [Event.close (some 0), Event.close (some 1)]).settles.length = 1 :=
  (one_shot_outcome { quiet := false, nothrow := false, closed := false }
    "echo hi" (fun _ => none) [Event.close (some 0), Event.close (some 1)] rfl).2.1
    ⟨Event.close (some 0), by simp, rfl⟩

theorem applyConfigs_promiseCell (sp : ShellPromiseObj) (ops : List ConfigOp) :
    (applyConfigs sp ops).promiseCell = sp.promiseCell := by
  induction ops generalizing sp with
  | nil => rfl
  | cons op ops ih => exact (ih (applyConfig sp op)).trans rfl

theorem applyConfigs_spawnCount (sp : ShellPromiseObj) (ops : List ConfigOp) :
    (applyConfigs sp ops).spawnCount = sp.spawnCount := by
  induction ops generalizing sp with
  | nil => rfl
  | cons op ops ih => exact (ih (applyConfig sp op)).trans rfl

/-- C2: starting is lazy, memoized and idempotent. A chain of
configuration calls on a fresh builder spawns nothing; the first promise
access spawns exactly once (handing out the promise with identity 0);
accessing the promise on an already started object returns the very same
object and promise without spawning; and every entry point — `then`,
`catch`, `finally`, the terminal accessors and the `stdin` getter — is
exactly the memoized promise access. -/
theorem lazy_memoized_start (cmd : String) (ops : List ConfigOp) :
    ((applyConfigs (FromCommand cmd) ops).promiseCell = none ∧
      (applyConfigs (FromCommand cmd) ops).spawnCount = 0) ∧
    ((getPromise (applyConfigs (FromCommand cmd) ops)).1.spawnCount = 1 ∧
      (getPromise (applyConfigs (FromCommand cmd) ops)).2 = 0) ∧
    (∀ sp : ShellPromiseObj, getPromise (getPromise sp).1 = getPromise sp) ∧
    (∀ sp : ShellPromiseObj, ∀ ep : EntryPoint, access sp ep = getPromise sp) := by
  have hcell : (applyConfigs (FromCommand cmd) ops).promiseCell = none :=
    (applyConfigs_promiseCell (FromCommand cmd) ops).trans rfl
  have hcount : (applyConfigs (FromCommand cmd) ops).spawnCount = 0 :=
    (applyConfigs_spawnCount (FromCommand cmd) ops).trans rfl
  refine ⟨⟨hcell, hcount⟩, ⟨?_, ?_⟩, ?_, fun sp ep => rfl⟩
  · simp only [getPromise, hcell, hcount]
  · simp only [getPromise, hcell, hcount]
  · intro sp
    cases h : sp.promiseCell with
    | some p => simp [getPromise, h]
    | none => simp [getPromise, h]

/-- Every resolved outcome carries `success = (exitCode == 0)`. -/
def OutcomesOk (st : RunState) : Prop :=
  ∀ out : ShellOutput, Settle.resolve out ∈ st.settles → out.success = (out.exitCode == 0)

theorem outcomesOk_step (st : RunState) (e : Event) (h : OutcomesOk st) :
    OutcomesOk (step st e) := by
  intro out hmem
  cases e with
  | stdoutData d =>
    rw [show step st (Event.stdoutData d) = onStdoutData st d from rfl,
      onStdoutData_settles] at hmem
    exact h out hmem
  | stderrData d =>
    rw [show step st (Event.stderrData d) = onStderrData st d from rfl,
      onStderrData_settles] at hmem
    exact h out hmem
  | close c =>
    rw [show step st (Event.close c) = onClose st c from rfl] at hmem
    unfold onClose at hmem
    split at hmem
    · exact h out hmem
    · simp only [List.mem_append, List.mem_singleton] at hmem
      rcases hmem with hmem | hmem
      · exact h out hmem
      · unfold closeSettle at hmem
        split at hmem
        · cases hmem
          rfl
        · split at hmem
          · cases hmem
            rfl
          · exact absurd hmem (by simp)
  | errorEv m =>
    rw [show step st (Event.errorEv m) = onError st m from rfl] at hmem
    unfold onError at hmem
    split at hmem
    · exact h out hmem
    · simp only [List.mem_append, List.mem_singleton] at hmem
      rcases hmem with hmem | hmem
      · exact h out hmem
      · split at hmem
        · cases hmem
          rfl
        · exact absurd hmem (by simp)
  | disconnect =>
    rw [show step st Event.disconnect = onError st "Disconnected" from rfl] at hmem
    unfold onError at hmem
    split at hmem
    · exact h out hmem
    · simp only [List.mem_append, List.mem_singleton] at hmem
      rcases hmem with hmem | hmem
      · exact h out hmem
      · split at hmem
        · cases hmem
          rfl
        · exact absurd hmem (by simp)

theorem outcomesOk_runEvents (st : RunState) (evs : List Event) (h : OutcomesOk st) :
    OutcomesOk (runEvents st evs) := by
  induction evs generalizing st with
  | nil => exact h
  | cons e evs ih => exact ih _ (outcomesOk_step st e h)

/-- C3: a normal close with exit code 0 resolves with the accumulated
buffers, exit code 0 and `success = true`; in every resolved outcome the
success flag equals `exitCode == 0`; and a close reporting an absent exit
code behaves exactly as a close with the sentinel code 1
(`const exitCode = code ?? 1`). -/
theorem close_zero_resolves (cfg : ShellPromiseState) (cmd : String)
    (penv : String → Option String) (evs : List Event) (h : cfg.closed = false)
    (hn : ∀ e ∈ evs, e.isCompletion = false) :
    (runEvents (initRun cfg cmd penv) (evs ++ [Event.close (some 0)])).settles =
      [Settle.resolve ⟨String.join (outData evs), String.join (errData evs), 0, true⟩] ∧
    (∀ evs2 : List Event, ∀ out : ShellOutput,
      Settle.resolve out ∈ (runEvents (initRun cfg cmd penv) evs2).settles →
      out.success = (out.exitCode == 0)) ∧
    (∀ st : RunState, onClose st none = onClose st (some 1)) := by
  obtain ⟨h1, h2, h3, h4, h5⟩ := runEvents_no_completion (initRun cfg cmd penv) evs hn
  refine ⟨?_, ?_, fun st => rfl⟩
  · rw [runEvents_append]
    show (onClose (runEvents (initRun cfg cmd penv) evs) (some 0)).settles = _
    have hclosed : (runEvents (initRun cfg cmd penv) evs).state.closed = false := by
      rw [h1]; exact h
    unfold onClose
    simp only [hclosed, Bool.false_eq_true, if_false]
    unfold closeSettle closeOutcome
    rw [h2, h3, h4]
    simp [initRun]
  · intro evs2 out hmem
    refine outcomesOk_runEvents (initRun cfg cmd penv) evs2 ?_ out hmem
    intro o ho
    exact absurd ho (by simp [initRun])

/-- Witness for C3 at a concrete one-chunk trace. -/
theorem close_zero_resolves_witness :
    (runEvents (initRun { quiet := false, nothrow := false, closed := false }
      "echo hi" (fun _ => none))
      ([Event.stdoutData "hi\n"] ++ [Event.close (some 0)])).settles =
      [Settle.resolve ⟨String.join (outData [Event.stdoutData "hi\n"]),
        String.join (errData [Event.stdoutData "hi\n"]), 0, true⟩] :=
  (close_zero_resolves { quiet := false, nothrow := false, closed := false }
    "echo hi" (fun _ => none) [Event.stdoutData "hi\n"] rfl
    (by intro e he; rw [List.mem_singleton] at he; subst he; rfl)).1

/-- C4: a normal close with a nonzero exit code `n`. With `nothrow` the
promise resolves with the accumulated buffers, exit code `n` and
`success = false`; without it the promise rejects with the accumulated
stderr text, or with `"Command failed with code N"` when that text is
empty. Moreover the `nothrow` flag is the single switch deciding
resolve-versus-reject, uniformly across every failing completion event
(nonzero or absent-code close, error, disconnect). -/
theorem nonzero_close (cfg : ShellPromiseState) (cmd : String)
    (penv : String → Option String) (evs : List Event) (n : Nat)
    (h : cfg.closed = false) (hn : ∀ e ∈ evs, e.isCompletion = false)
    (hnz : n ≠ 0) :
    (cfg.nothrow = true →
      (runEvents (initRun cfg cmd penv) (evs ++ [Event.close (some n)])).settles =
        [Settle.resolve ⟨String.join (outData evs), String.join (errData evs), n, false⟩]) ∧
    (cfg.nothrow = false →
      (runEvents (initRun cfg cmd penv) (evs ++ [Event.close (some n)])).settles =
        [Settle.reject (if String.join (errData evs) = "" then
          "Command failed with code " ++ toString n
        else String.join (errData evs))]) ∧
    (∀ st : RunState, ∀ e : Event, st.state.closed = false → e.isCompletion = true →
      e ≠ Event.close (some 0) →
      ((∃ out : ShellOutput, (step st e).settles = st.settles ++ [Settle.resolve out]) ↔
        st.state.nothrow = true)) := by
  obtain ⟨h1, h2, h3, h4, h5⟩ := runEvents_no_completion (initRun cfg cmd penv) evs hn
  have hclosed : (runEvents (initRun cfg cmd penv) evs).state.closed = false := by
    rw [h1]; exact h
  have hthrow : (runEvents (initRun cfg cmd penv) evs).state.nothrow = cfg.nothrow := by
    rw [h1]
    rfl
  have hbz : (n == 0) = false := by
    simp [hnz]
  refine ⟨?_, ?_, ?_⟩
  · intro hnt
    rw [runEvents_append]
    show (onClose (runEvents (initRun cfg cmd penv) evs) (some n)).settles = _
    unfold onClose
    simp only [hclosed, Bool.false_eq_true, if_false]
    unfold closeSettle closeOutcome
    simp only [Option.getD_some, hbz, Bool.false_eq_true, if_false, hthrow, hnt, if_true]
    rw [h2, h3, h4]
    simp [initRun, hbz]
  · intro hnt
    rw [runEvents_append]
    show (onClose (runEvents (initRun cfg cmd penv) evs) (some n)).settles = _
    unfold onClose
    simp only [hclosed, Bool.false_eq_true, if_false]
    unfold closeSettle
    simp only [Option.getD_some, hbz, Bool.false_eq_true, if_false, hthrow, hnt]
    rw [h2, h4]
    simp [initRun]
  · intro st e hcl hcomp hne
    cases e with
    | stdoutData d => simp [Event.isCompletion] at hcomp
    | stderrData d => simp [Event.isCompletion] at hcomp
    | close c =>
      have hkz : (c.getD 1) ≠ 0 := by
        cases c with
        | none => simp
        | some m =>
          intro hm
          simp only [Option.getD_some] at hm
          exact hne (by rw [hm])
      have hkb : ((c.getD 1) == 0) = false := by simp [hkz]
      rw [show step st (Event.close c) = onClose st c from rfl]
      unfold onClose
      simp only [hcl, Bool.false_eq_true, if_false]
      unfold closeSettle
      simp only [hkb, Bool.false_eq_true, if_false]
      cases hb : st.state.nothrow <;> simp [hb]
    | errorEv m =>
      rw [show step st (Event.errorEv m) = onError st m from rfl]
      unfold onError
      simp only [hcl, Bool.false_eq_true, if_false]
      cases hb : st.state.nothrow <;> simp [hb]
    | disconnect =>
      rw [show step st Event.disconnect = onError st "Disconnected" from rfl]
      unfold onError
      simp only [hcl, Bool.false_eq_true, if_false]
      cases hb : st.state.nothrow <;> simp [hb]

/-- Witness for C4: a throwing invocation with stderr text `"boom"` and
exit code 2 rejects with message `"boom"`. -/
theorem nonzero_close_witness :
    (runEvents (initRun { quiet := false, nothrow := false, closed := false }
      "false" (fun _ => none))
      ([Event.stderrData "boom"] ++ [Event.close (some 2)])).settles =
      [Settle.reject (if String.join (errData [Event.stderrData "boom"]) = "" then
        "Command failed with code " ++ toString 2
      else String.join (errData [Event.stderrData "boom"]))] :=
  (nonzero_close { quiet := false, nothrow := false, closed := false }
    "false" (fun _ => none) [Event.stderrData "boom"] 2 rfl
    (by intro e he; rw [List.mem_singleton] at he; subst he; rfl)
    (by decide)).2.1 rfl

/-- C5: a spawn-level error (or disconnect) before a clean close. The
outcome carries the sentinel exit code 1 and `success = false`; the error
is echoed via `console.error` exactly when quiet is not set; with
`nothrow` the promise resolves with the partially accumulated buffers,
otherwise it rejects with the underlying error; and the `disconnect`
event is handled exactly as `onError("Disconnected")`. -/
theorem spawn_error_path (cfg : ShellPromiseState) (cmd : String)
    (penv : String → Option String) (evs : List Event) (msg : String)
    (h : cfg.closed = false) (hn : ∀ e ∈ evs, e.isCompletion = false) :
    (cfg.nothrow = true →
      (runEvents (initRun cfg cmd penv) (evs ++ [Event.errorEv msg])).settles =
        [Settle.resolve ⟨String.join (outData evs), String.join (errData evs), 1, false⟩]) ∧
    (cfg.nothrow = false →
      (runEvents (initRun cfg cmd penv) (evs ++ [Event.errorEv msg])).settles =
        [Settle.reject msg]) ∧
    ((runEvents (initRun cfg cmd penv) (evs ++ [Event.errorEv msg])).consoleErr =
      if cfg.quiet then [] else [msg]) ∧
    (∀ st : RunState, step st Event.disconnect = step st (Event.errorEv "Disconnected")) := by
  obtain ⟨h1, h2, h3, h4, h5⟩ := runEvents_no_completion (initRun cfg cmd penv) evs hn
  have hclosed : (runEvents (initRun cfg cmd penv) evs).state.closed = false := by
    rw [h1]; exact h
  have hthrow : (runEvents (initRun cfg cmd penv) evs).state.nothrow = cfg.nothrow := by
    rw [h1]; rfl
  have hquiet : (runEvents (initRun cfg cmd penv) evs).state.quiet = cfg.quiet := by
    rw [h1]; rfl
  refine ⟨?_, ?_, ?_, fun st => rfl⟩
  · intro hnt
    rw [runEvents_append]
    show (onError (runEvents (initRun cfg cmd penv) evs) msg).settles = _
    unfold onError
    simp only [hclosed, Bool.false_eq_true, if_false]
    unfold errOutcome
    simp only [hthrow, hnt, if_true]
    rw [h2, h3, h4]
    simp [initRun]
  · intro hnt
    rw [runEvents_append]
    show (onError (runEvents (initRun cfg cmd penv) evs) msg).settles = _
    unfold onError
    simp only [hclosed, Bool.false_eq_true, if_false]
    simp only [hthrow, hnt, Bool.false_eq_true, if_false]
    rw [h2]
    simp [initRun]
  · rw [runEvents_append]
    show (onError (runEvents (initRun cfg cmd penv) evs) msg).consoleErr = _
    unfold onError
    simp only [hclosed, Bool.false_eq_true, if_false]
    simp only [hquiet]
    rw [h5]
    cases hq : cfg.quiet <;> simp [initRun]

/-- Witness for C5: a quiet, non-throwing invocation hit by a spawn error
after one stdout chunk resolves with the partial buffer, exit code 1 and
no console echo. -/
theorem spawn_error_path_witness :
    (runEvents (initRun { quiet := true, nothrow := true, closed := false }
      "echo hello" (fun _ => none))
      ([Event.stdoutData "par"] ++ [Event.errorEv "spawn ENOENT"])).settles =
      [Settle.resolve ⟨String.join (outData [Event.stdoutData "par"]),
        String.join (errData [Event.stdoutData "par"]), 1, false⟩] :=
  (spawn_error_path { quiet := true, nothrow := true, closed := false }
    "echo hello" (fun _ => none) [Event.stdoutData "par"] "spawn ENOENT" rfl
    (by intro e he; rw [List.mem_singleton] at he; subst he; rfl)).1 rfl

/-- Agreement of everything that determines capture and resolution: two
run states that may differ in the quiet flag and in the
forwarding/echo records, but agree on the capture-relevant parts. -/
def CaptureAgree (a b : RunState) : Prop :=
  a.state.nothrow = b.state.nothrow ∧
  a.state.closed = b.state.closed ∧
  a.stdoutChunks = b.stdoutChunks ∧
  a.stderrChunks = b.stderrChunks ∧
  a.settles = b.settles

theorem captureAgree_step (a b : RunState) (e : Event) (h : CaptureAgree a b) :
    CaptureAgree (step a e) (step b e) := by
  obtain ⟨hnt, hcl, hso, hse, hst⟩ := h
  cases e with
  | stdoutData d =>
    refine ⟨?_, ?_, ?_, ?_, ?_⟩ <;>
      simp only [show step a (Event.stdoutData d) = onStdoutData a d from rfl,
        show step b (Event.stdoutData d) = onStdoutData b d from rfl,
        onStdoutData_state, onStdoutData_stdoutChunks, onStdoutData_stderrChunks,
        onStdoutData_settles, hnt, hcl, hso, hse, hst]
  | stderrData d =>
    refine ⟨?_, ?_, ?_, ?_, ?_⟩ <;>
      simp only [show step a (Event.stderrData d) = onStderrData a d from rfl,
        show step b (Event.stderrData d) = onStderrData b d from rfl,
        onStderrData_state, onStderrData_stdoutChunks, onStderrData_stderrChunks,
        onStderrData_settles, hnt, hcl, hso, hse, hst]
  | close c =>
    simp only [show step a (Event.close c) = onClose a c from rfl,
      show step b (Event.close c) = onClose b c from rfl]
    by_cases hc : a.state.closed = true
    · rw [onClose_of_closed a c hc, onClose_of_closed b c (by rw [← hcl]; exact hc)]
      exact ⟨hnt, hcl, hso, hse, hst⟩
    · simp only [Bool.not_eq_true] at hc
      have hcb : b.state.closed = false := by rw [← hcl]; exact hc
      have hsettle : closeSettle a (c.getD 1) = closeSettle b (c.getD 1) := by
        unfold closeSettle closeOutcome
        rw [hnt, hso, hse]
      unfold onClose
      simp only [hc, hcb, Bool.false_eq_true, if_false]
      exact ⟨by simp [hnt], by simp, by simp [hso], by simp [hse], by simp [hst, hsettle]⟩
  | errorEv m =>
    simp only [show step a (Event.errorEv m) = onError a m from rfl,
      show step b (Event.errorEv m) = onError b m from rfl]
    by_cases hc : a.state.closed = true
    · rw [onError_of_closed a m hc, onError_of_closed b m (by rw [← hcl]; exact hc)]
      exact ⟨hnt, hcl, hso, hse, hst⟩
    · simp only [Bool.not_eq_true] at hc
      have hcb : b.state.closed = false := by rw [← hcl]; exact hc
      have hsettle :
          (if a.state.nothrow then Settle.resolve (errOutcome a) else Settle.reject m) =
          (if b.state.nothrow then Settle.resolve (errOutcome b) else Settle.reject m) := by
        unfold errOutcome
        rw [hnt, hso, hse]
      unfold onError
      simp only [hc, hcb, Bool.false_eq_true, if_false]
      exact ⟨by simp [hnt], by simp, by simp [hso], by simp [hse], by simp [hst, hsettle]⟩
  | disconnect =>
    simp only [show step a Event.disconnect = onError a "Disconnected" from rfl,
      show step b Event.disconnect = onError b "Disconnected" from rfl]
    by_cases hc : a.state.closed = true
    · rw [onError_of_closed a _ hc, onError_of_closed b _ (by rw [← hcl]; exact hc)]
      exact ⟨hnt, hcl, hso, hse, hst⟩
    · simp only [Bool.not_eq_true] at hc
      have hcb : b.state.closed = false := by rw [← hcl]; exact hc
      have hsettle :
          (if a.state.nothrow then Settle.resolve (errOutcome a)
            else Settle.reject "Disconnected") =
          (if b.state.nothrow then Settle.resolve (errOutcome b)
            else Settle.reject "Disconnected") := by
        unfold errOutcome
        rw [hnt, hso, hse]
      unfold onError
      simp only [hc, hcb, Bool.false_eq_true, if_false]
      exact ⟨by simp [hnt], by simp, by simp [hso], by simp [hse], by simp [hst, hsettle]⟩

theorem captureAgree_runEvents (a b : RunState) (evs : List Event)
    (h : CaptureAgree a b) : CaptureAgree (runEvents a evs) (runEvents b evs) := by
  induction evs generalizing a b with
  | nil => exact h
  | cons e evs ih => exact ih _ _ (captureAgree_step a b e h)

/-- Under quiet, no event forwards anything to the controlling process,
and the quiet flag persists. -/
theorem quiet_step_no_forward (st : RunState) (e : Event)
    (h : st.state.quiet = true) :
    (step st e).state.quiet = true ∧
    (step st e).parentStdout = st.parentStdout ∧
    (step st e).parentStderr = st.parentStderr ∧
    (step st e).consoleErr = st.consoleErr := by
  cases e with
  | stdoutData d =>
    simp only [show step st (Event.stdoutData d) = onStdoutData st d from rfl]
    unfold onStdoutData
    simp [h]
  | stderrData d =>
    simp only [show step st (Event.stderrData d) = onStderrData st d from rfl]
    unfold onStderrData
    simp [h]
  | close c =>
    simp only [show step st (Event.close c) = onClose st c from rfl]
    unfold onClose
    split <;> simp [h]
  | errorEv m =>
    simp only [show step st (Event.errorEv m) = onError st m from rfl]
    unfold onError
    split <;> simp [h]
  | disconnect =>
    simp only [show step st Event.disconnect = onError st "Disconnected" from rfl]
    unfold onError
    split <;> simp [h]

theorem quiet_runEvents_no_forward (st : RunState) (evs : List Event)
    (h : st.state.quiet = true) :
    (runEvents st evs).state.quiet = true ∧
    (runEvents st evs).parentStdout = st.parentStdout ∧
    (runEvents st evs).parentStderr = st.parentStderr ∧
    (runEvents st evs).consoleErr = st.consoleErr := by
  induction evs generalizing st with
  | nil => exact ⟨h, rfl, rfl, rfl⟩
  | cons e evs ih =>
    obtain ⟨q1, q2, q3, q4⟩ := quiet_step_no_forward st e h
    obtain ⟨r1, r2, r3, r4⟩ := ih (step st e) q1
    exact ⟨r1, r2.trans q2, r3.trans q3, r4.trans q4⟩

/-- C6: quiet does not influence capture. For any fixed chunk/completion
event sequence, the run with quiet set and the run with quiet unset
accumulate identical stdout and stderr buffers and record identical
settles (hence identical decoded views of the outcome); the quiet run
forwards nothing to the controlling process's streams and echoes nothing
to its error stream. -/
theorem quiet_capture_invariance (cfg : ShellPromiseState) (cmd : String)
    (penv : String → Option String) (evs : List Event) :
    (runEvents (initRun { cfg with quiet := true } cmd penv) evs).stdoutChunks =
      (runEvents (initRun { cfg with quiet := false } cmd penv) evs).stdoutChunks ∧
    (runEvents (initRun { cfg with quiet := true } cmd penv) evs).stderrChunks =
      (runEvents (initRun { cfg with quiet := false } cmd penv) evs).stderrChunks ∧
    (runEvents (initRun { cfg with quiet := true } cmd penv) evs).settles =
      (runEvents (initRun { cfg with quiet := false } cmd penv) evs).settles ∧
    (runEvents (initRun { cfg with quiet := true } cmd penv) evs).parentStdout = [] ∧
    (runEvents (initRun { cfg with quiet := true } cmd penv) evs).parentStderr = [] ∧
    (runEvents (initRun { cfg with quiet := true } cmd penv) evs).consoleErr = [] := by
  obtain ⟨a1, a2, a3, a4, a5⟩ :=
    captureAgree_runEvents (initRun { cfg with quiet := true } cmd penv)
      (initRun { cfg with quiet := false } cmd penv) evs ⟨rfl, rfl, rfl, rfl, rfl⟩
  obtain ⟨q1, q2, q3, q4⟩ :=
    quiet_runEvents_no_forward (initRun { cfg with quiet := true } cmd penv) evs rfl
  exact ⟨a3, a4, a5, q2, q3, q4⟩

theorem step_globalEnv (st : RunState) (e : Event) :
    (step st e).globalEnv = st.globalEnv := by
  cases e with
  | stdoutData d =>
    simp only [show step st (Event.stdoutData d) = onStdoutData st d from rfl]
    unfold onStdoutData
    split <;> rfl
  | stderrData d =>
    simp only [show step st (Event.stderrData d) = onStderrData st d from rfl]
    unfold onStderrData
    split <;> rfl
  | close c =>
    simp only [show step st (Event.close c) = onClose st c from rfl]
    unfold onClose
    split <;> rfl
  | errorEv m =>
    simp only [show step st (Event.errorEv m) = onError st m from rfl]
    unfold onError
    split <;> rfl
  | disconnect =>
    simp only [show step st Event.disconnect = onError st "Disconnected" from rfl]
    unfold onError
    split <;> rfl

theorem runEvents_globalEnv (st : RunState) (evs : List Event) :
    (runEvents st evs).globalEnv = st.globalEnv := by
  induction evs generalizing st with
  | nil => rfl
  | cons e evs ih => exact (ih (step st e)).trans (step_globalEnv st e)

theorem step_spawnCall (st : RunState) (e : Event) :
    (step st e).spawnCall = st.spawnCall := by
  cases e with
  | stdoutData d =>
    simp only [show step st (Event.stdoutData d) = onStdoutData st d from rfl]
    unfold onStdoutData
    split <;> rfl
  | stderrData d =>
    simp only [show step st (Event.stderrData d) = onStderrData st d from rfl]
    unfold onStderrData
    split <;> rfl
  | close c =>
    simp only [show step st (Event.close c) = onClose st c from rfl]
    unfold onClose
    split <;> rfl
  | errorEv m =>
    simp only [show step st (Event.errorEv m) = onError st m from rfl]
    unfold onError
    split <;> rfl
  | disconnect =>
    simp only [show step st Event.disconnect = onError st "Disconnected" from rfl]
    unfold onError
    split <;> rfl

theorem runEvents_spawnCall (st : RunState) (evs : List Event) :
    (runEvents st evs).spawnCall = st.spawnCall := by
  induction evs generalizing st with
  | nil => rfl
  | cons e evs ih => exact (ih (step st e)).trans (step_spawnCall st e)

/-- C7: the environment handed to `childProcess.spawn` is the inherited
process environment overlaid with the configured overlay, the overlay
winning on every key it defines and the inherited value surviving on
every other key (with no overlay the inherited environment is passed
unchanged); and no run ever mutates the process-wide environment or the
spawn-call record made at start. -/
theorem env_merge_no_mutation (cfg : ShellPromiseState) (cmd : String)
    (penv : String → Option String) :
    (∀ ov : String → Option String, cfg.envOverlay = some ov →
      (∀ k v, ov k = some v → (spawnCallOf cfg cmd penv).env k = some v) ∧
      (∀ k, ov k = none → (spawnCallOf cfg cmd penv).env k = penv k)) ∧
    (cfg.envOverlay = none → (spawnCallOf cfg cmd penv).env = penv) ∧
    (∀ evs : List Event, (runEvents (initRun cfg cmd penv) evs).globalEnv = penv) ∧
    (∀ evs : List Event,
      (runEvents (initRun cfg cmd penv) evs).spawnCall = spawnCallOf cfg cmd penv) := by
  refine ⟨?_, ?_, ?_, ?_⟩
  · intro ov hov
    constructor
    · intro k v hkv
      simp [spawnCallOf, spawnEnv, jsSpread, hov, hkv]
    · intro k hk
      simp [spawnCallOf, spawnEnv, jsSpread, hov, hk]
  · intro h0
    simp [spawnCallOf, spawnEnv, h0]
  · intro evs
    exact (runEvents_globalEnv _ evs).trans rfl
  · intro evs
    exact (runEvents_spawnCall _ evs).trans rfl

/-- Witness for C7: with overlay `FOO := bar` over an inherited
environment holding `FOO = baz` and `HOME = /root`, the spawn environment
maps `FOO` to `bar` (overlay wins) and `HOME` to `/root` (inherited
survives). -/
theorem env_merge_no_mutation_witness :
    (spawnCallOf { envOverlay := some (fun k => if k = "FOO" then some "bar" else none),
                   quiet := false, nothrow := false, closed := false }
      "printenv" (fun k => if k = "FOO" then some "baz"
        else if k = "HOME" then some "/root" else none)).env "FOO" = some "bar" ∧
    (spawnCallOf { envOverlay := some (fun k => if k = "FOO" then some "bar" else none),
                   quiet := false, nothrow := false, closed := false }
      "printenv" (fun k => if k = "FOO" then some "baz"
        else if k = "HOME" then some "/root" else none)).env "HOME" = some "/root" := by
  have h := env_merge_no_mutation
    { envOverlay := some (fun k => if k = "FOO" then some "bar" else none),
      quiet := false, nothrow := false, closed := false }
    "printenv" (fun k => if k = "FOO" then some "baz"
      else if k = "HOME" then some "/root" else none)
  exact ⟨(h.1 _ rfl).1 "FOO" "bar" (by simp),
    (h.1 _ rfl).2 "HOME" (by simp)⟩

/-- C8 counterexample: `ShellOutput.json` does throw. On the stdout
contents `"\x7b"` (a lone opening brace), `"[1,]"` (trailing comma) and
`"// note\n1"` (a comment) the strict `JSON.parse` of index.ts line 111
raises a `SyntaxError` (modelled as `Except.error`) instead of returning
an absent value — refuting "never throws" and the claimed tolerance of
comments and trailing commas. -/
theorem json_view_throws_cex :
    ShellOutput.json ⟨"\x7b", "", 0, true⟩ = Except.error jsonSyntaxError ∧
    ShellOutput.json ⟨"[1,]", "", 0, true⟩ = Except.error jsonSyntaxError ∧
    ShellOutput.json ⟨"// note\n1", "", 0, true⟩ = Except.error jsonSyntaxError :=
  ⟨rfl, rfl, rfl⟩

/-- C8 amended: the structured-value view is a strict `JSON.parse` of the
stdout text — it returns the parsed value exactly on valid strict JSON
and throws a `SyntaxError` on everything else (comments and trailing
commas included); it never yields an absent value and never logs. -/
theorem json_view_strict (out : ShellOutput) :
    (∀ v : JsonValue, jsonParse out.stdout = some v → out.json = Except.ok v) ∧
    (jsonParse out.stdout = none → out.json = Except.error jsonSyntaxError) := by
  constructor
  · intro v hv
    unfold ShellOutput.json
    rw [hv]
  · intro hv
    unfold ShellOutput.json
    rw [hv]

/-- Witness for the amended C8 at a concrete valid JSON document. -/
theorem json_view_strict_witness :
    ShellOutput.json ⟨"\x7b\"hello\":123\x7d", "", 0, true⟩ =
      Except.ok (JsonValue.obj [("hello", JsonValue.num "123")]) :=
  (json_view_strict ⟨"\x7b\"hello\":123\x7d", "", 0, true⟩).1
    (JsonValue.obj [("hello", JsonValue.num "123")]) rfl

theorem splitNl_ne_nil (l : List Char) : splitNl l ≠ [] := by
  induction l with
  | nil => simp [splitNl]
  | cons c l ih =>
    unfold splitNl
    split
    · simp
    · cases hsp : splitNl l with
      | nil => simp
      | cons h t => simp

theorem splitNl_append_newline (l : List Char) :
    splitNl (l ++ ['\n']) = splitNl l ++ [[]] := by
  induction l with
  | nil => rfl
  | cons c l ih =>
    show splitNl (c :: (l ++ ['\n'])) = splitNl (c :: l) ++ [[]]
    by_cases hc : c = '\n'
    · simp [splitNl, hc, ih]
    · obtain ⟨h0, t0, hl⟩ := List.exists_cons_of_ne_nil (splitNl_ne_nil l)
      simp only [splitNl, hc, if_false, ih, hl]
      simp

/-- C9 counterexample: the captured stdout `"hello\n"` yields the two
lines `["hello", ""]` from `ShellPromise.lines` (a plain
`split("\n")`), not the single line `["hello"]` demanded by the claim's
drop-trailing-empty-segment rule. -/
theorem lines_keeps_trailing_empty_cex :
    linesOf ⟨"hello\n", "", 0, true⟩ = ["hello", ""] ∧
    linesSpec "hello\n" = ["hello"] ∧
    linesOf ⟨"hello\n", "", 0, true⟩ ≠ linesSpec "hello\n" :=
  ⟨rfl, rfl, by decide⟩

/-- C9 amended: the line view over the frozen buffer is the verbatim
newline split of the captured stdout — when stdout ends in a newline the
final empty segment is kept, so appending a newline appends one empty
line. -/
theorem lines_split_verbatim (out : ShellOutput) (s : String) :
    linesOf out = jsSplitNl out.stdout ∧
    jsSplitNl (s ++ "\n") = jsSplitNl s ++ [""] := by
  refine ⟨rfl, ?_⟩
  unfold jsSplitNl
  rw [String.data_append, show ("\n" : String).data = ['\n'] from rfl,
    splitNl_append_newline]
  simp

theorem runActions_append (st : RunState) (a b : List Action) :
    runActions st (a ++ b) = runActions (runActions st a) b :=
  List.foldl_append _ _ _ _

theorem applyState_closed (st : ShellPromiseState) (op : ConfigOp) :
    (applyState st op).closed = st.closed := by
  cases op <;> rfl

theorem applyState_nothrow_eq (s t : ShellPromiseState) (op : ConfigOp)
    (h : s.nothrow = t.nothrow) : (applyState s op).nothrow = (applyState t op).nothrow := by
  cases op <;> simp [applyState, h]

theorem applyState_quiet_mono (st : ShellPromiseState) (op : ConfigOp)
    (h : st.quiet = true) : (applyState st op).quiet = true := by
  cases op <;> simp [applyState, h]

theorem captureAgree_stepAction (a b : RunState) (act : Action)
    (h : CaptureAgree a b) : CaptureAgree (stepAction a act) (stepAction b act) := by
  cases act with
  | ev e => exact captureAgree_step a b e h
  | set op =>
    obtain ⟨hnt, hcl, hso, hse, hst⟩ := h
    exact ⟨applyState_nothrow_eq _ _ op hnt,
      by rw [show (stepAction a (Action.set op)).state.closed = (applyState a.state op).closed
        from rfl, show (stepAction b (Action.set op)).state.closed = (applyState b.state op).closed
        from rfl, applyState_closed, applyState_closed, hcl],
      hso, hse, hst⟩

theorem captureAgree_runActions (a b : RunState) (acts : List Action)
    (h : CaptureAgree a b) : CaptureAgree (runActions a acts) (runActions b acts) := by
  induction acts generalizing a b with
  | nil => exact h
  | cons act acts ih => exact ih _ _ (captureAgree_stepAction a b act h)

/-- Setting quiet on the shared state mid-run leaves every
capture-relevant component unchanged. -/
theorem captureAgree_set_quiet (st : RunState) :
    CaptureAgree (stepAction st (Action.set ConfigOp.quiet)) st :=
  ⟨rfl, rfl, rfl, rfl, rfl⟩

theorem quiet_stepAction_no_forward (st : RunState) (a : Action)
    (h : st.state.quiet = true) :
    (stepAction st a).state.quiet = true ∧
    (stepAction st a).parentStdout = st.parentStdout ∧
    (stepAction st a).parentStderr = st.parentStderr ∧
    (stepAction st a).consoleErr = st.consoleErr := by
  cases a with
  | ev e => exact quiet_step_no_forward st e h
  | set op => exact ⟨applyState_quiet_mono st.state op h, rfl, rfl, rfl⟩

theorem quiet_runActions_no_forward (st : RunState) (acts : List Action)
    (h : st.state.quiet = true) :
    (runActions st acts).state.quiet = true ∧
    (runActions st acts).parentStdout = st.parentStdout ∧
    (runActions st acts).parentStderr = st.parentStderr ∧
    (runActions st acts).consoleErr = st.consoleErr := by
  induction acts generalizing st with
  | nil => exact ⟨h, rfl, rfl, rfl⟩
  | cons a acts ih =>
    obtain ⟨q1, q2, q3, q4⟩ := quiet_stepAction_no_forward st a h
    obtain ⟨r1, r2, r3, r4⟩ := ih (stepAction st a) q1
    exact ⟨r1, r2.trans q2, r3.trans q3, r4.trans q4⟩

/-- C10 counterexample: the configuration is not immutable after start.
The handlers read the shared state object at event time, so calling
`quiet()` after the first chunk suppresses forwarding of the second chunk
of the in-flight run: the interleaved run forwards only `["a"]` while the
same events under the pre-start (non-quiet) configuration forward
`["a", "b"]` — the setter does alter the behavior of the already-started
invocation. -/
theorem setter_after_start_cex :
    (runActions (initRun { quiet := false, nothrow := false, closed := false }
      "cat" (fun _ => none))
      [Action.ev (Event.stdoutData "a"), Action.set ConfigOp.quiet,
        Action.ev (Event.stdoutData "b"),
        Action.ev (Event.close (some 0))]).parentStdout = ["a"] ∧
    (runActions (initRun { quiet := false, nothrow := false, closed := false }
      "cat" (fun _ => none))
      [Action.ev (Event.stdoutData "a"), Action.ev (Event.stdoutData "b"),
        Action.ev (Event.close (some 0))]).parentStdout = ["a", "b"] ∧
    (["a"] : List String) ≠ ["a", "b"] :=
  ⟨rfl, rfl, by decide⟩

/-- C10 amended: a setter called after start never crashes and, at the
moment of the call, changes nothing but the configuration fields; setting
quiet mid-run leaves the captured buffers and the recorded resolution
exactly as they would have been without the call; but it does suppress
all forwarding to the controlling process from that point on, so the
forwarding behavior of the in-flight run is affected. -/
theorem setter_after_start_amended (st : RunState) (acts1 acts2 : List Action)
    (op : ConfigOp) :
    ((stepAction st (Action.set op)).stdoutChunks = st.stdoutChunks ∧
      (stepAction st (Action.set op)).stderrChunks = st.stderrChunks ∧
      (stepAction st (Action.set op)).settles = st.settles ∧
      (stepAction st (Action.set op)).parentStdout = st.parentStdout ∧
      (stepAction st (Action.set op)).parentStderr = st.parentStderr ∧
      (stepAction st (Action.set op)).consoleErr = st.consoleErr) ∧
    ((runActions st (acts1 ++ Action.set ConfigOp.quiet :: acts2)).stdoutChunks =
        (runActions st (acts1 ++ acts2)).stdoutChunks ∧
      (runActions st (acts1 ++ Action.set ConfigOp.quiet :: acts2)).stderrChunks =
        (runActions st (acts1 ++ acts2)).stderrChunks ∧
      (runActions st (acts1 ++ Action.set ConfigOp.quiet :: acts2)).settles =
        (runActions st (acts1 ++ acts2)).settles) ∧
    ((runActions st (acts1 ++ Action.set ConfigOp.quiet :: acts2)).parentStdout =
        (runActions st acts1).parentStdout ∧
      (runActions st (acts1 ++ Action.set ConfigOp.quiet :: acts2)).parentStderr =
        (runActions st acts1).parentStderr ∧
      (runActions st (acts1 ++ Action.set ConfigOp.quiet :: acts2)).consoleErr =
        (runActions st acts1).consoleErr) := by
  have hsplit : runActions st (acts1 ++ Action.set ConfigOp.quiet :: acts2) =
      runActions (stepAction (runActions st acts1) (Action.set ConfigOp.quiet)) acts2 := by
    rw [show (acts1 ++ Action.set ConfigOp.quiet :: acts2) =
      (acts1 ++ [Action.set ConfigOp.quiet]) ++ acts2 by simp, runActions_append,
      runActions_append]
    rfl
  refine ⟨⟨rfl, rfl, rfl, rfl, rfl, rfl⟩, ?_, ?_⟩
  · obtain ⟨c1, c2, c3, c4, c5⟩ := captureAgree_runActions
      (stepAction (runActions st acts1) (Action.set ConfigOp.quiet))
      (runActions st acts1) acts2 (captureAgree_set_quiet (runActions st acts1))
    rw [hsplit, runActions_append]
    exact ⟨c3, c4, c5⟩
  · obtain ⟨q1, q2, q3, q4⟩ := quiet_runActions_no_forward
      (stepAction (runActions st acts1) (Action.set ConfigOp.quiet)) acts2 rfl
    rw [hsplit]
    exact ⟨q2, q3, q4⟩

end NodeShell
